import Mathlib

/-!
Verification of the cost/budget tracking engine of the novel-to-toon
pipeline (source: poc/workflow-0.2.0/scripts/cost_tracker.py).

Currency amounts and megapixel counts are embedded as exact rationals;
Python int() truncation, round(x, n) (round half to even) and dict /
list state are modelled explicitly.  The wall clock read by
datetime.utcnow() is passed in as an explicit natural-number instant,
and the outcome of the live-snapshot file write is passed in as a
boolean (the Python code has no exception handler around it, so a
failed write propagates and the method does not return its record).
-/

/-- Python int() applied to a rational: truncation toward zero. -/
def pyInt (q : ℚ) : ℤ := if 0 ≤ q then ⌊q⌋ else ⌈q⌉

/-- Python round() to an integer: round half to even. -/
def pyRound (q : ℚ) : ℤ :=
  if q - ⌊q⌋ < 1/2 then ⌊q⌋
  else if 1/2 < q - ⌊q⌋ then ⌊q⌋ + 1
  else if ⌊q⌋ % 2 = 0 then ⌊q⌋ else ⌊q⌋ + 1

/-- Python round(q, n): round half to even at n decimal places. -/
def roundTo (n : ℕ) (q : ℚ) : ℚ := (pyRound (q * 10 ^ n) : ℚ) / 10 ^ n

/-- A pricing-table entry: the three value shapes of FalCostTracker.PRICING
(a bare number, a dict with per_mp, or a dict with first_mp/additional_mp). -/
inductive Pricing where
  | flat (amount : ℚ)
  | perMp (rate : ℚ)
  | tiered (first_mp additional_mp : ℚ)
deriving DecidableEq

/-- The FalCostTracker.PRICING class table. -/
def PRICING : List (String × Pricing) :=
  [("fal-ai/flux-pro/kontext", Pricing.flat 0.04),
   ("fal-ai/flux-pro/kontext/multi", Pricing.flat 0.04),
   ("fal-ai/flux-pro/kontext/text-to-image", Pricing.flat 0.04),
   ("fal-ai/flux-pro/kontext/max", Pricing.flat 0.08),
   ("fal-ai/flux-pro/kontext/max/multi", Pricing.flat 0.08),
   ("fal-ai/flux-2/flash", Pricing.perMp 0.005),
   ("fal-ai/flux-2/turbo", Pricing.perMp 0.008),
   ("fal-ai/flux-2/dev", Pricing.perMp 0.012),
   ("fal-ai/flux-2-pro", Pricing.tiered 0.03 0.015),
   ("fal-ai/flux-2-flex", Pricing.perMp 0.06)]

/-- FalCostTracker.calculate_megapixels: (width * height) / 1_000_000. -/
def calculate_megapixels (w h : ℤ) : ℚ := ((w * h : ℤ) : ℚ) / 1000000

/-- The billed megapixel count of calculate_cost:
max(1, int(mp + 0.99)). -/
def mp_rounded (w h : ℤ) : ℤ :=
  max 1 (pyInt (calculate_megapixels w h + 99/100))

/-- FalCostTracker.calculate_cost over an explicit pricing table
(the method reads the table off self). -/
def calculate_cost (pricing : List (String × Pricing)) (model : String)
    (w h : ℤ) : ℚ :=
  match List.lookup model pricing with
  | none => 0.05
  | some (Pricing.flat a) => a
  | some (Pricing.perMp r) => (mp_rounded w h : ℚ) * r
  | some (Pricing.tiered f a) =>
      if 1 < mp_rounded w h then f + ((mp_rounded w h - 1 : ℤ) : ℚ) * a else f

/-- APICallRecord (cost_tracker.py dataclass). -/
structure APICallRecord where
  timestamp : ℕ
  platform : String
  model : String
  panel_id : String
  cost_usd : ℚ
  generation_time_ms : ℤ
  image_dimensions : String
  megapixels : ℚ
  status : String
  phase : Option String
  scene_id : Option String
  error_message : Option String
  metadata : List (String × String)
deriving DecidableEq

/-- The argument bundle of one FalCostTracker.track call. -/
structure CallDesc where
  model : String
  panel_id : String
  generation_time_ms : ℤ
  width : ℤ
  height : ℤ
  phase : Option String
  scene_id : Option String
  status : String
  error_message : Option String
  metadata : List (String × String)
deriving DecidableEq

/-- The mutable state of a FalCostTracker instance.  live_file records
whether self.live_file is truthy (a path is configured). -/
structure FalCostTracker where
  pricing : List (String × Pricing)
  session_id : String
  budget_usd : ℚ
  live_file : Bool
  start_time : ℕ
  calls : List APICallRecord
  total_cost : ℚ
deriving DecidableEq

/-- FalCostTracker.__init__ (now is the utcnow() instant read for the
generated session id and start_time). -/
def FalCostTracker.init (session_id : Option String) (budget_usd : ℚ)
    (live_file : Bool) (now : ℕ) : FalCostTracker :=
  { pricing := PRICING
    session_id := session_id.getD ("session-" ++ toString now)
    budget_usd := budget_usd
    live_file := live_file
    start_time := now
    calls := []
    total_cost := 0 }

/-- The cost charged by track: priced only when status == "success". -/
def FalCostTracker.costOf (t : FalCostTracker) (d : CallDesc) : ℚ :=
  if d.status = "success" then calculate_cost t.pricing d.model d.width d.height
  else 0

/-- The APICallRecord constructed by track (lines 136-150):
cost_usd is round(cost, 6) and megapixels is round(mp, 2). -/
def FalCostTracker.trackRecord (t : FalCostTracker) (d : CallDesc)
    (now : ℕ) : APICallRecord :=
  { timestamp := now
    platform := "fal.ai"
    model := d.model
    panel_id := d.panel_id
    cost_usd := roundTo 6 (t.costOf d)
    generation_time_ms := d.generation_time_ms
    image_dimensions := toString d.width ++ "x" ++ toString d.height
    megapixels := roundTo 2 (calculate_megapixels d.width d.height)
    status := d.status
    phase := d.phase
    scene_id := d.scene_id
    error_message := d.error_message
    metadata := d.metadata }

/-- FalCostTracker.track.  The ledger append and the total_cost
increment happen unconditionally; the snapshot write (attempted only
when live_file is truthy) then either succeeds (ioOk) and the record
is returned, or raises, in which case no record reaches the caller
(there is no exception handler in the source). -/
def FalCostTracker.track (t : FalCostTracker) (d : CallDesc) (now : ℕ)
    (ioOk : Bool) : FalCostTracker × Option APICallRecord :=
  let r := t.trackRecord d now
  ({ t with calls := t.calls ++ [r], total_cost := t.total_cost + t.costOf d },
   if t.live_file && !ioOk then none else some r)

/-- Fold a whole sequence of track calls over a tracker. -/
def runTrack (t : FalCostTracker) : List (CallDesc × ℕ × Bool) → FalCostTracker
  | [] => t
  | (d, now, io) :: rest => runTrack (t.track d now io).1 rest

/-- One step of the summary() grouping dicts: count += 1 and
cost_usd += call.cost_usd into the bucket of the given key,
a fresh bucket being appended at the end (Python dicts preserve
insertion order). -/
def upsertGroup (key : String) (c : ℚ) :
    List (String × ℕ × ℚ) → List (String × ℕ × ℚ)
  | [] => [(key, 1, c)]
  | e :: rest =>
      if e.1 = key then (e.1, e.2.1 + 1, e.2.2 + c) :: rest
      else e :: upsertGroup key c rest

/-- by_status[call.status] = by_status.get(call.status, 0) + 1. -/
def bumpStatus (key : String) : List (String × ℕ) → List (String × ℕ)
  | [] => [(key, 1)]
  | e :: rest =>
      if e.1 = key then (e.1, e.2 + 1) :: rest
      else e :: bumpStatus key rest

/-- The unrounded per-key cost accumulation of summary(). -/
def groupCosts (key : APICallRecord → String) (calls : List APICallRecord) :
    List (String × ℕ × ℚ) :=
  calls.foldl (fun acc c => upsertGroup (key c) c.cost_usd acc) []

/-- The dict returned by FalCostTracker.summary. -/
structure Summary where
  session_id : String
  start_time : ℕ
  end_time : ℕ
  total_calls : ℕ
  total_cost_usd : ℚ
  budget_usd : ℚ
  percent_used : ℚ
  by_model : List (String × ℕ × ℚ)
  by_phase : List (String × ℕ × ℚ)
  by_status : List (String × ℕ)
  total_generation_time_ms : ℤ
  average_generation_time_ms : ℚ
deriving DecidableEq

/-- FalCostTracker.summary (now is the utcnow() instant stored as
end_time).  Per-bucket costs accumulate unrounded and are rounded to 4
places in a final pass; averages and percent_used guard their zero
denominators with an if, exactly as the source does. -/
def FalCostTracker.summary (t : FalCostTracker) (now : ℕ) : Summary :=
  let total_time : ℤ := t.calls.foldl (fun acc c => acc + c.generation_time_ms) 0
  { session_id := t.session_id
    start_time := t.start_time
    end_time := now
    total_calls := t.calls.length
    total_cost_usd := roundTo 4 t.total_cost
    budget_usd := t.budget_usd
    percent_used :=
      if 0 < t.budget_usd then roundTo 1 (t.total_cost / t.budget_usd * 100)
      else 0
    by_model := (groupCosts (fun c => c.model) t.calls).map
      (fun e => (e.1, e.2.1, roundTo 4 e.2.2))
    by_phase := (groupCosts (fun c => c.phase.getD "unspecified") t.calls).map
      (fun e => (e.1, e.2.1, roundTo 4 e.2.2))
    by_status := t.calls.foldl (fun acc c => bumpStatus c.status acc)
      [("success", 0), ("failed", 0), ("retried", 0)]
    total_generation_time_ms := total_time
    average_generation_time_ms :=
      if t.calls = [] then 0
      else roundTo 2 ((total_time : ℚ) / (t.calls.length : ℚ)) }

/-- Modelled from the spec: the batch-discount branch of
PricingResolver.resolve is absent from the source (calculate_cost has
no isBatch parameter anywhere under src); per the spec a batch-discount
multiplier (default 0.5) applies multiplicatively to a resolved flat or
per-megapixel cost when the caller flags the call as batch, while
tiered pricing does not define batch behavior and carries the
undiscounted figure. -/
def resolve (pricing : List (String × Pricing)) (model : String) (w h : ℤ)
    (isBatch : Bool) (discount : ℚ) : ℚ :=
  match List.lookup model pricing with
  | some (Pricing.tiered _ _) => calculate_cost pricing model w h
  | _ => (if isBatch then discount else 1) * calculate_cost pricing model w h

/-- get_tracker: returns the global tracker, lazily creating it
(budget and live file at their defaults) only when it is None.
The pair is (returned tracker, new global). -/
def get_tracker (globalTracker : Option FalCostTracker)
    (session_id : Option String) (now : ℕ) :
    FalCostTracker × Option FalCostTracker :=
  match globalTracker with
  | some t => (t, some t)
  | none =>
      let t := FalCostTracker.init session_id 10 true now
      (t, some t)

/-- reset_tracker: unconditionally replaces the global tracker. -/
def reset_tracker (_globalTracker : Option FalCostTracker)
    (session_id : Option String) (now : ℕ) :
    FalCostTracker × Option FalCostTracker :=
  let t := FalCostTracker.init session_id 10 true now
  (t, some t)

/-! ## Helper lemmas -/

lemma pyRound_intCast (n : ℤ) : pyRound (n : ℚ) = n := by
  unfold pyRound
  rw [Int.floor_intCast]
  rw [if_pos (by norm_num)]

lemma roundTo_eq_self (n : ℕ) (q : ℚ) (k : ℤ) (h : q * 10 ^ n = (k : ℚ)) :
    roundTo n q = q := by
  unfold roundTo
  rw [h, pyRound_intCast, ← h]
  field_simp

/-- Exact multiples of one thousandth of a currency unit. -/
def isMilli (q : ℚ) : Prop := ∃ k : ℤ, q = (k : ℚ) / 1000

lemma isMilli_roundTo6 (q : ℚ) (h : isMilli q) : roundTo 6 q = q := by
  obtain ⟨k, rfl⟩ := h
  apply roundTo_eq_self 6 _ (k * 1000)
  push_cast
  ring

/-- Every amount in a pricing entry is a whole number of thousandths. -/
def milliEntry : Pricing → Prop
  | Pricing.flat a => isMilli a
  | Pricing.perMp r => isMilli r
  | Pricing.tiered f a => isMilli f ∧ isMilli a

def milliTable (l : List (String × Pricing)) : Prop :=
  ∀ e ∈ l, milliEntry e.2

lemma milliTable_lookup {l : List (String × Pricing)} (hm : milliTable l)
    {model : String} {p : Pricing} (h : List.lookup model l = some p) :
    milliEntry p := by
  induction l with
  | nil => simp [List.lookup] at h
  | cons e rest ih =>
      rw [List.lookup] at h
      rcases hme : (model == e.1) with _ | _
      · rw [hme] at h
        exact ih (fun x hx => hm x (List.mem_cons_of_mem e hx)) h
      · rw [hme] at h
        simp at h
        subst h
        exact hm e (List.mem_cons_self e rest)

lemma milliTable_PRICING : milliTable PRICING := by
  intro e he
  simp only [PRICING, List.mem_cons, List.not_mem_nil, or_false] at he
  rcases he with rfl | rfl | rfl | rfl | rfl | rfl | rfl | rfl | rfl | rfl
  · exact ⟨40, by norm_num⟩
  · exact ⟨40, by norm_num⟩
  · exact ⟨40, by norm_num⟩
  · exact ⟨80, by norm_num⟩
  · exact ⟨80, by norm_num⟩
  · exact ⟨5, by norm_num⟩
  · exact ⟨8, by norm_num⟩
  · exact ⟨12, by norm_num⟩
  · exact ⟨⟨30, by norm_num⟩, ⟨15, by norm_num⟩⟩
  · exact ⟨60, by norm_num⟩

lemma isMilli_intMul (m : ℤ) (q : ℚ) (h : isMilli q) : isMilli ((m : ℚ) * q) := by
  obtain ⟨k, rfl⟩ := h
  exact ⟨m * k, by push_cast; ring⟩

lemma isMilli_add (p q : ℚ) (hp : isMilli p) (hq : isMilli q) :
    isMilli (p + q) := by
  obtain ⟨k, rfl⟩ := hp
  obtain ⟨j, rfl⟩ := hq
  exact ⟨k + j, by push_cast; ring⟩

lemma calculate_cost_isMilli (pricing : List (String × Pricing))
    (hm : milliTable pricing) (model : String) (w h : ℤ) :
    isMilli (calculate_cost pricing model w h) := by
  unfold calculate_cost
  rcases hl : List.lookup model pricing with _ | p
  · exact ⟨50, by norm_num⟩
  · have hp := milliTable_lookup hm hl
    cases p with
    | flat a => exact hp
    | perMp r => exact isMilli_intMul _ _ hp
    | tiered f a =>
        obtain ⟨hf, ha⟩ := hp
        dsimp only
        split
        · exact isMilli_add _ _ hf (isMilli_intMul _ _ ha)
        · exact hf

lemma costOf_isMilli (t : FalCostTracker) (hm : milliTable t.pricing)
    (d : CallDesc) : isMilli (t.costOf d) := by
  unfold FalCostTracker.costOf
  split
  · exact calculate_cost_isMilli _ hm _ _ _
  · exact ⟨0, by norm_num⟩

lemma floor_add_div_million (q s : ℤ) (h0 : 0 ≤ s) (h2 : s < 2000000) :
    ⌊(q : ℚ) + (s : ℚ) / 1000000⌋ = if s < 1000000 then q else q + 1 := by
  have hs0 : (0 : ℚ) ≤ (s : ℚ) := by exact_mod_cast h0
  have hs2 : (s : ℚ) < 2000000 := by exact_mod_cast h2
  split
  · rename_i hs
    have hs1 : (s : ℚ) < 1000000 := by exact_mod_cast hs
    rw [Int.floor_eq_iff]
    constructor
    · have : (0 : ℚ) ≤ (s : ℚ) / 1000000 := by positivity
      linarith
    · have : (s : ℚ) / 1000000 < 1 := by
        rw [div_lt_one (by norm_num)]
        linarith
      linarith
  · rename_i hs
    have hs1 : (1000000 : ℚ) ≤ (s : ℚ) := by
      push_neg at hs
      exact_mod_cast hs
    rw [Int.floor_eq_iff]
    constructor
    · have : (1 : ℚ) ≤ (s : ℚ) / 1000000 := by
        rw [le_div_iff₀ (by norm_num)]
        linarith
      push_cast
      linarith
    · have : (s : ℚ) / 1000000 < 2 := by
        rw [div_lt_iff₀ (by norm_num)]
        linarith
      push_cast
      linarith

lemma ceil_add_div_million (q r : ℤ) (h0 : 0 ≤ r) (h1 : r < 1000000) :
    ⌈(q : ℚ) + (r : ℚ) / 1000000⌉ = if r = 0 then q else q + 1 := by
  split
  · rename_i hr
    subst hr
    norm_num
  · rename_i hr
    have hr0 : (0 : ℚ) < (r : ℚ) := by
      have : 0 < r := lt_of_le_of_ne h0 (Ne.symm hr)
      exact_mod_cast this
    have hr1 : (r : ℚ) < 1000000 := by exact_mod_cast h1
    rw [Int.ceil_eq_iff]
    constructor
    · have : (0 : ℚ) < (r : ℚ) / 1000000 := by positivity
      push_cast
      linarith
    · have : (r : ℚ) / 1000000 ≤ 1 := by
        rw [div_le_one (by norm_num)]
        linarith
      push_cast
      linarith

lemma max_one_pyInt (x : ℚ) : max 1 (pyInt x) = max 1 ⌊x⌋ := by
  unfold pyInt
  split
  · rfl
  · rename_i hx
    push_neg at hx
    have h1 : ⌈x⌉ ≤ 0 := Int.ceil_le.mpr (by push_cast; linarith)
    have h2 : ⌊x⌋ ≤ ⌈x⌉ := Int.floor_le_ceil x
    omega

lemma mp_decomp (w h : ℤ) :
    calculate_megapixels w h
      = ((w * h).ediv 1000000 : ℚ) + ((w * h).emod 1000000 : ℚ) / 1000000 := by
  have hA : 1000000 * (w * h).ediv 1000000 + (w * h).emod 1000000 = w * h :=
    Int.ediv_add_emod (w * h) 1000000
  have hA' : ((w * h : ℤ) : ℚ)
      = 1000000 * ((w * h).ediv 1000000 : ℚ) + ((w * h).emod 1000000 : ℚ) := by
    exact_mod_cast hA.symm
  unfold calculate_megapixels
  rw [hA']
  ring

/-- The exact billed-megapixel behavior of max(1, int(mp + 0.99)):
ceiling when the fractional part of mp is zero or at least 0.01 MP,
floor when it is positive but below 0.01 MP, and never less than 1. -/
lemma mp_rounded_characterization (w h : ℤ) :
    mp_rounded w h =
      if (w * h).emod 1000000 = 0 ∨ 10000 ≤ (w * h).emod 1000000
      then max 1 ⌈calculate_megapixels w h⌉
      else max 1 ⌊calculate_megapixels w h⌋ := by
  have hr0 : 0 ≤ (w * h).emod 1000000 := Int.emod_nonneg (w * h) (by norm_num)
  have hr1 : (w * h).emod 1000000 < 1000000 :=
    Int.emod_lt_of_pos (w * h) (by norm_num)
  set q := (w * h).ediv 1000000 with hq
  set r := (w * h).emod 1000000 with hrdef
  have hplus : calculate_megapixels w h + 99/100
      = (q : ℚ) + ((r + 990000 : ℤ) : ℚ) / 1000000 := by
    rw [mp_decomp]
    push_cast
    ring
  unfold mp_rounded
  rw [max_one_pyInt, hplus,
    floor_add_div_million q (r + 990000) (by omega) (by omega),
    mp_decomp, ceil_add_div_million q r hr0 hr1,
    floor_add_div_million q r hr0 (by omega)]
  split_ifs <;> omega

lemma mp_rounded_nonpos (w h : ℤ) (hA : w * h ≤ 0) : mp_rounded w h = 1 := by
  unfold mp_rounded
  rw [max_one_pyInt]
  have hA' : ((w * h : ℤ) : ℚ) ≤ 0 := by exact_mod_cast hA
  have hmp : calculate_megapixels w h ≤ 0 := by
    unfold calculate_megapixels
    rw [div_nonpos_iff]
    right
    exact ⟨hA', by norm_num⟩
  have hf : ⌊calculate_megapixels w h + 99/100⌋ < 1 :=
    Int.floor_lt.mpr (by push_cast; linarith)
  omega

lemma roundTo_zero (n : ℕ) : roundTo n (0 : ℚ) = 0 :=
  roundTo_eq_self n 0 0 (by norm_num)

lemma track_state (t : FalCostTracker) (d : CallDesc) (now : ℕ) (io : Bool) :
    (t.track d now io).1
      = { t with calls := t.calls ++ [t.trackRecord d now],
                 total_cost := t.total_cost + t.costOf d } := rfl

lemma runTrack_resum (steps : List (CallDesc × ℕ × Bool)) :
    ∀ t : FalCostTracker, milliTable t.pricing →
      t.total_cost = (t.calls.map (fun r => r.cost_usd)).sum →
      (runTrack t steps).total_cost
        = ((runTrack t steps).calls.map (fun r => r.cost_usd)).sum := by
  induction steps with
  | nil => exact fun t _ h => h
  | cons s rest ih =>
      obtain ⟨d, now, io⟩ := s
      intro t hm hinv
      show (runTrack (t.track d now io).1 rest).total_cost = _
      apply ih
      · exact hm
      · have hc : (t.trackRecord d now).cost_usd = t.costOf d :=
          isMilli_roundTo6 _ (costOf_isMilli t hm d)
        show t.total_cost + t.costOf d
          = ((t.calls ++ [t.trackRecord d now]).map (fun r => r.cost_usd)).sum
        rw [List.map_append, List.sum_append, List.map_cons, List.map_nil,
          List.sum_cons, List.sum_nil, hc, hinv]
        ring

/-! ## Sample inputs for witnesses -/

def sampleTracker : FalCostTracker := FalCostTracker.init (some "poc") 10 true 0

def sampleFailed : CallDesc :=
  { model := "fal-ai/flux-2/flash", panel_id := "p1", generation_time_ms := 1200,
    width := 1024, height := 1440, phase := some "panel_generation",
    scene_id := some "scene_01", status := "failed",
    error_message := some "NSFW filter triggered", metadata := [] }

def sampleUnknown : CallDesc :=
  { model := "unknown-model", panel_id := "p2", generation_time_ms := 100,
    width := -3, height := 5, phase := none, scene_id := none,
    status := "success", error_message := none, metadata := [] }

/-! ## Claim theorems -/

/-- Claim C1: after every sequence of track calls on one tracker, the
running total_cost equals the sum of the cost_usd fields over all
records currently in the ledger. -/
theorem total_cost_equals_resum (steps : List (CallDesc × ℕ × Bool))
    (sid : Option String) (b : ℚ) (lf : Bool) (n0 : ℕ) :
    (runTrack (FalCostTracker.init sid b lf n0) steps).total_cost
      = ((runTrack (FalCostTracker.init sid b lf n0) steps).calls.map
          (fun r => r.cost_usd)).sum := by
  apply runTrack_resum
  · exact milliTable_PRICING
  · rfl

/-- Claim C2: a call whose status is not success is recorded with
cost_usd equal to zero and does not change total_cost, for every
model, dimensions and pricing table. -/
theorem failed_status_costs_zero (t : FalCostTracker) (d : CallDesc)
    (now : ℕ) (io : Bool) (h : d.status ≠ "success") :
    (t.trackRecord d now).cost_usd = 0
    ∧ (t.track d now io).1.calls = t.calls ++ [t.trackRecord d now]
    ∧ (t.track d now io).1.total_cost = t.total_cost := by
  have hc : t.costOf d = 0 := by rw [FalCostTracker.costOf, if_neg h]
  refine ⟨?_, rfl, ?_⟩
  · show roundTo 6 (t.costOf d) = 0
    rw [hc]
    exact roundTo_zero 6
  · show t.total_cost + t.costOf d = t.total_cost
    rw [hc]
    ring

/-- Witness for C2 at a concrete failed call. -/
theorem failed_status_costs_zero_witness :
    sampleFailed.status ≠ "success"
    ∧ (sampleTracker.trackRecord sampleFailed 5).cost_usd = 0 :=
  ⟨by decide,
   (failed_status_costs_zero sampleTracker sampleFailed 5 true (by decide)).1⟩

/-- Claim C3 counterexample: with both dimensions negative (hence
non-positive), width = height = -2000 on the 0.005/MP flash model is
billed at 4 MP (0.02), not at the model's 1 MP minimum (0.005):
the product of two negative dimensions is positive. -/
theorem negative_dims_priced_above_minimum :
    calculate_cost PRICING "fal-ai/flux-2/flash" (-2000) (-2000) = 1/50
    ∧ ((1 : ℚ)/50 ≠ 1/200) := by
  have hl : List.lookup "fal-ai/flux-2/flash" PRICING
      = some (Pricing.perMp 0.005) := by
    simp [PRICING, List.lookup]
  have h1 : calculate_megapixels (-2000 : ℤ) (-2000) + 99/100 = 499/100 := by
    unfold calculate_megapixels
    norm_num
  have h2 : pyInt (499/100) = 4 := by
    unfold pyInt
    rw [if_pos (by norm_num)]
    norm_num [Int.floor_eq_iff]
  have hmp : mp_rounded (-2000 : ℤ) (-2000) = 4 := by
    unfold mp_rounded
    rw [h1, h2]
    rfl
  constructor
  · simp only [calculate_cost, hl, hmp]
    norm_num
  · norm_num

/-- Claim C3 (amended): track always performs the ledger append and the
total_cost increment, and the resulting state does not depend on the
outcome of the snapshot write; when the write succeeds the new record
is returned (when it fails, the unhandled exception propagates and no
record is returned, so the call does abort, with the ledger already
updated); an unknown model is priced at the 0.05 fallback instead of
raising; and a non-positive width*height product is billed at the 1 MP
minimum (two negative dimensions multiply to a positive product and
are billed like the corresponding positive image). -/
theorem track_absorbs_degenerate_inputs (t : FalCostTracker) (d : CallDesc)
    (now : ℕ) (io : Bool) :
    ((t.track d now io).1.calls = t.calls ++ [t.trackRecord d now]
      ∧ (t.track d now io).1.total_cost = t.total_cost + t.costOf d
      ∧ (t.track d now true).1 = (t.track d now false).1)
    ∧ (io = true → (t.track d now io).2 = some (t.trackRecord d now))
    ∧ (List.lookup d.model t.pricing = none →
        calculate_cost t.pricing d.model d.width d.height = 0.05)
    ∧ (d.width * d.height ≤ 0 → mp_rounded d.width d.height = 1) := by
  refine ⟨⟨rfl, rfl, rfl⟩, ?_, ?_, ?_⟩
  · rintro rfl
    show (if t.live_file && !true then none else some _) = some _
    simp
  · intro hl
    simp [calculate_cost, hl]
  · exact mp_rounded_nonpos d.width d.height

/-- Witness for C3 at a concrete unknown model with one negative
dimension and a successful snapshot write. -/
theorem track_absorbs_degenerate_inputs_witness :
    (sampleTracker.track sampleUnknown 5 true).2
        = some (sampleTracker.trackRecord sampleUnknown 5)
    ∧ calculate_cost sampleTracker.pricing sampleUnknown.model
        sampleUnknown.width sampleUnknown.height = 0.05
    ∧ mp_rounded sampleUnknown.width sampleUnknown.height = 1 :=
  ⟨(track_absorbs_degenerate_inputs sampleTracker sampleUnknown 5 true).2.1 rfl,
   (track_absorbs_degenerate_inputs sampleTracker sampleUnknown 5 true).2.2.1
     (by simp [sampleTracker, FalCostTracker.init, sampleUnknown, PRICING,
       List.lookup]),
   (track_absorbs_degenerate_inputs sampleTracker sampleUnknown 5 true).2.2.2
     (by decide)⟩

/-- Claim C4 counterexample: at 1000 x 1005 (exactly 1.005 MP) the
0.005/MP flash model bills 1 MP (0.005), while the claimed formula
max(1, ceil(mp)) gives 2 MP (0.01): int(mp + 0.99) drops positive
fractional parts below 0.01 MP. -/
theorem small_fraction_bills_floor :
    calculate_cost PRICING "fal-ai/flux-2/flash" 1000 1005 = 1/200
    ∧ ((max 1 ⌈calculate_megapixels 1000 1005⌉ : ℤ) : ℚ) * (5/1000) = 1/100
    ∧ ((1 : ℚ)/200 ≠ 1/100) := by
  have hl : List.lookup "fal-ai/flux-2/flash" PRICING
      = some (Pricing.perMp 0.005) := by
    simp [PRICING, List.lookup]
  have hmpv : calculate_megapixels (1000 : ℤ) 1005 = 201/200 := by
    unfold calculate_megapixels
    norm_num
  have h1 : calculate_megapixels (1000 : ℤ) 1005 + 99/100 = 399/200 := by
    rw [hmpv]
    norm_num
  have h2 : pyInt (399/200) = 1 := by
    unfold pyInt
    rw [if_pos (by norm_num)]
    norm_num [Int.floor_eq_iff]
  have hmp : mp_rounded (1000 : ℤ) 1005 = 1 := by
    unfold mp_rounded
    rw [h1, h2]
    rfl
  have hc : (⌈calculate_megapixels 1000 1005⌉ : ℤ) = 2 := by
    rw [hmpv, Int.ceil_eq_iff]
    norm_num
  refine ⟨?_, ?_, by norm_num⟩
  · simp only [calculate_cost, hl, hmp]
    norm_num
  · rw [hc]
    norm_num

/-- Claim C4 (amended): for a per-megapixel or tiered entry the code
bills mp_rounded = max(1, int(w*h/1e6 + 0.99)) megapixels, which
equals max(1, ceil(mp)) exactly when the fractional part of mp is zero
or at least 0.01 MP, and max(1, floor(mp)) when the fractional part is
positive but below 0.01 MP (int truncates toward zero); an exactly
integral megapixel value bills that integer, not one more. -/
theorem per_mp_billing_characterization (rate f a : ℚ) (w h : ℤ) :
    calculate_cost [("m", Pricing.perMp rate)] "m" w h
      = (mp_rounded w h : ℚ) * rate
    ∧ calculate_cost [("m", Pricing.tiered f a)] "m" w h
      = f + ((max 0 (mp_rounded w h - 1) : ℤ) : ℚ) * a
    ∧ mp_rounded w h =
        (if (w * h).emod 1000000 = 0 ∨ 10000 ≤ (w * h).emod 1000000
         then max 1 ⌈calculate_megapixels w h⌉
         else max 1 ⌊calculate_megapixels w h⌋) := by
  have h1 : (1 : ℤ) ≤ mp_rounded w h := le_max_left 1 _
  refine ⟨?_, ?_, mp_rounded_characterization w h⟩
  · simp [calculate_cost, List.lookup]
  · have hlk : List.lookup "m" [("m", Pricing.tiered f a)]
        = some (Pricing.tiered f a) := by simp [List.lookup]
    simp only [calculate_cost, hlk]
    split
    · rename_i hm
      rw [max_eq_right (by omega)]
    · rename_i hm
      have hone : mp_rounded w h = 1 := by omega
      rw [hone]
      norm_num

/-- Claim C5 (spec-modelled resolve): with the default 0.5 discount, a
batch-flagged call on a flat or per-megapixel entry pays half the
resolved cost (0.04 flat resolves to 0.02), a tiered entry carries the
undiscounted figure, and a non-batch call pays the undiscounted
amount. -/
theorem resolve_applies_batch_discount (amt rate f a : ℚ) (w h : ℤ) :
    resolve [("m", Pricing.flat amt)] "m" w h true (1/2) = amt * (1/2)
    ∧ resolve [("m", Pricing.perMp rate)] "m" w h true (1/2)
        = calculate_cost [("m", Pricing.perMp rate)] "m" w h * (1/2)
    ∧ resolve [("m", Pricing.tiered f a)] "m" w h true (1/2)
        = calculate_cost [("m", Pricing.tiered f a)] "m" w h
    ∧ resolve [("m", Pricing.flat 0.04)] "m" w h true (1/2) = 0.02
    ∧ resolve [("m", Pricing.flat amt)] "m" w h false (1/2) = amt := by
  refine ⟨?_, ?_, ?_, ?_, ?_⟩
  · simp [resolve, calculate_cost, List.lookup]
    ring
  · simp [resolve, List.lookup]
    ring
  · simp [resolve, List.lookup]
  · simp [resolve, calculate_cost, List.lookup]
    norm_num
  · simp [resolve, calculate_cost, List.lookup]

/-- Claim C6 counterexample: two summary invocations on the identical
tracker state, with no intervening record call, differ, because the
summary embeds the invocation instant as end_time. -/
theorem summary_differs_across_time :
    FalCostTracker.summary (FalCostTracker.init (some "s") 10 true 0) 0
      ≠ FalCostTracker.summary (FalCostTracker.init (some "s") 10 true 0) 1 := by
  intro hcontra
  have h := congrArg Summary.end_time hcontra
  simp [FalCostTracker.summary] at h

/-- Claim C6 (amended): except for the end_time field, which records
the invocation instant, summary is a pure function of the tracker
state: two invocations with no intervening record calls agree on every
other field. -/
theorem summary_pure_modulo_end_time (t : FalCostTracker) (n1 n2 : ℕ) :
    t.summary n1 = { t.summary n2 with end_time := n1 } := rfl

/-- A pricing table whose single flat amount, 0.0000014, has more than
six decimal places, making the storage rounding of cost_usd
observable. -/
def microTable : List (String × Pricing) := [("m", Pricing.flat (14/10000000))]

def microTracker : FalCostTracker :=
  { pricing := microTable, session_id := "s", budget_usd := 10,
    live_file := false, start_time := 0, calls := [], total_cost := 0 }

def microCall : CallDesc :=
  { model := "m", panel_id := "p", generation_time_ms := 1, width := 1024,
    height := 1440, phase := none, scene_id := none, status := "success",
    error_message := none, metadata := [] }

/-- Claim C7 counterexample: with a configured pricing entry of
0.0000014, the stored cost_usd is round(cost, 6) = 0.000001, not the
unrounded cost 0.0000014 that total_cost accumulates, so the ledger
re-sum and total_cost disagree: rounding is applied at storage, not
only at presentation boundaries. -/
theorem stored_cost_usd_is_rounded :
    ((microTracker.track microCall 0 true).1.calls.map
        (fun r => r.cost_usd)).sum
      ≠ (microTracker.track microCall 0 true).1.total_cost := by
  have hcost : microTracker.costOf microCall = 14/10000000 := by
    unfold FalCostTracker.costOf
    rw [if_pos (show microCall.status = "success" from rfl)]
    simp [calculate_cost, microTracker, microTable, microCall, List.lookup]
  have h1 : (14/10000000 : ℚ) * 10 ^ 6 = 7/5 := by norm_num
  have h2 : ⌊(7/5 : ℚ)⌋ = 1 := by norm_num [Int.floor_eq_iff]
  have hr : roundTo 6 (14/10000000 : ℚ) = 1/1000000 := by
    unfold roundTo
    rw [h1]
    unfold pyRound
    rw [h2, if_pos (by norm_num)]
    norm_num
  have hrec : (microTracker.trackRecord microCall 0).cost_usd = 1/1000000 := by
    show roundTo 6 (microTracker.costOf microCall) = 1/1000000
    rw [hcost, hr]
  have hcalls : (microTracker.track microCall 0 true).1.calls
      = [microTracker.trackRecord microCall 0] := rfl
  have ht : (microTracker.track microCall 0 true).1.total_cost
      = 14/10000000 := by
    show microTracker.total_cost + microTracker.costOf microCall = _
    rw [hcost]
    show (0 : ℚ) + 14/10000000 = 14/10000000
    norm_num
  rw [hcalls, ht, List.map_cons, List.map_nil, List.sum_cons, List.sum_nil,
    hrec]
  norm_num

/-- Claim C7 (amended): the record's cost_usd is stored pre-rounded to
six decimal places, while the running total_cost accumulates the
unrounded cost; the summary accumulates per-bucket costs unrounded and
rounds to four places only in its final pass, and its total is
round(total_cost, 4).  For any pricing table whose amounts are whole
numbers of thousandths -- in particular the built-in PRICING table --
the six-place storage rounding is the identity, so every stored
cost_usd equals the exact resolved cost. -/
theorem rounding_applied_at_boundaries (t t2 : FalCostTracker) (d : CallDesc)
    (now n2 : ℕ) (io : Bool) :
    (t.trackRecord d now).cost_usd = roundTo 6 (t.costOf d)
    ∧ (t.track d now io).1.total_cost = t.total_cost + t.costOf d
    ∧ (milliTable t.pricing → (t.trackRecord d now).cost_usd = t.costOf d)
    ∧ milliTable PRICING
    ∧ (t2.summary n2).total_cost_usd = roundTo 4 t2.total_cost
    ∧ (t2.summary n2).by_model = (groupCosts (fun c => c.model) t2.calls).map
        (fun e => (e.1, e.2.1, roundTo 4 e.2.2)) := by
  refine ⟨rfl, rfl, ?_, milliTable_PRICING, rfl, rfl⟩
  intro hm
  exact isMilli_roundTo6 _ (costOf_isMilli t hm d)

/-- Witness for C7 on the built-in table: the stored cost equals the
exact resolved cost. -/
theorem rounding_applied_at_boundaries_witness :
    (sampleTracker.trackRecord sampleFailed 5).cost_usd
      = sampleTracker.costOf sampleFailed :=
  (rounding_applied_at_boundaries sampleTracker sampleTracker sampleFailed
    5 5 true).2.2.1 milliTable_PRICING

/-- Claim C8: the summary of a freshly initialized tracker (empty
ledger) reports zero calls, zero cost, the complete zero-filled status
map and a zero average generation time without any division fault, and
percent_used is zero whenever the budget is zero, for any ledger
contents. -/
theorem empty_summary_and_zero_budget (sid : Option String) (b : ℚ)
    (lf : Bool) (n0 now : ℕ) (t : FalCostTracker) (n2 : ℕ) :
    ((FalCostTracker.init sid b lf n0).summary now).total_calls = 0
    ∧ ((FalCostTracker.init sid b lf n0).summary now).total_cost_usd = 0
    ∧ ((FalCostTracker.init sid b lf n0).summary now).by_status
        = [("success", 0), ("failed", 0), ("retried", 0)]
    ∧ ((FalCostTracker.init sid b lf n0).summary now).average_generation_time_ms
        = 0
    ∧ (t.budget_usd = 0 → (t.summary n2).percent_used = 0) := by
  refine ⟨rfl, ?_, rfl, rfl, ?_⟩
  · show roundTo 4 (0 : ℚ) = 0
    exact roundTo_zero 4
  · intro hb
    show (if 0 < t.budget_usd then roundTo 1 (t.total_cost / t.budget_usd * 100)
      else 0) = 0
    rw [if_neg (by rw [hb]; exact lt_irrefl 0)]

/-- Witness for C8 at a concrete zero-budget tracker. -/
theorem empty_summary_and_zero_budget_witness :
    ((FalCostTracker.init (some "w") 0 true 0).summary 3).percent_used = 0
    ∧ ((FalCostTracker.init (some "w") 0 true 0).summary 3).total_calls = 0 :=
  ⟨(empty_summary_and_zero_budget (some "w") 0 true 0 3
      (FalCostTracker.init (some "w") 0 true 0) 3).2.2.2.2 rfl,
   (empty_summary_and_zero_budget (some "w") 0 true 0 3
      (FalCostTracker.init (some "w") 0 true 0) 3).1⟩

/-- Claim C10: once the process-wide tracker exists, get_tracker
returns it unchanged for every session_id argument (the argument is
ignored), and only the first creation or reset_tracker (which
unconditionally builds a fresh tracker from its own session_id) can
influence the global tracker. -/
theorem get_tracker_ignores_later_session_ids (t : FalCostTracker)
    (sid sid2 : Option String) (now now2 : ℕ) (g : Option FalCostTracker) :
    get_tracker (some t) sid now = (t, some t)
    ∧ get_tracker (some t) sid now = get_tracker (some t) sid2 now2
    ∧ reset_tracker g sid now
        = (FalCostTracker.init sid 10 true now,
           some (FalCostTracker.init sid 10 true now)) :=
  ⟨rfl, rfl, rfl⟩
